import Mathlib

/-
Verification development for the surbtc-ann market-data ingestion code.

The development shallowly embeds the three engines of the repository:
  * the tick-to-candle aggregation and merge engine
    (src/Buda/BudaIntegrationConfig.py, class BudaMarketTradeList),
  * the historical REST page parser
    (src/krakenWebSocket/KrakenIntegration.py, KrakenHistoricalDataIntegration),
  * the websocket connection supervisor
    (src/krakenWebSocket/KrakenIntegration.py, KrakenSocketHandler).

Python floats are modelled as rationals (exact arithmetic), Python ints as Nat,
pandas DataFrames of hourly candles as association lists from bucket-start
timestamps to candle records.  The pandas operations used by the source
(resample with a stable sort of the index, ohlc aggregation, first/max/min/last/sum
aggregation, forward fill) are spelled out as executable Lean functions.
-/

namespace Fortacryp

/-! ## Candle aggregation engine (src/Buda/BudaIntegrationConfig.py) -/

/-- One OHLCV candle row of the aggregated DataFrame.  Field `open_` stands for
the `open` column of the source (`open` is a Lean keyword). -/
structure Candle where
  open_ : ℚ
  high : ℚ
  low : ℚ
  close : ℚ
  volume : ℚ
deriving Repr, DecidableEq

/-- A raw trade entry as stored by `BudaMarketTradeEntry.__init__`: the wire
list `[timestamp, amount, price, direction]` with `int`/`float` casts applied.
The `direction` field (buy or sell) is kept as a Bool; `to_dict` drops it
before aggregation, so it never influences candles. -/
structure BudaMarketTradeEntry where
  timestamp : Nat
  amount : ℚ
  price : ℚ
  direction : Bool
deriving Repr, DecidableEq

/-- Milliseconds per hour.  `resample_ohlcv` reinterprets the integer trade
timestamps as milliseconds (`astype('M8[ms]')`) and resamples with the fixed
pandas rule `'1H'`, so buckets are `3600000` index units wide. -/
def msPerHour : Nat := 3600000

/-- Start of the hourly bucket containing a timestamp (pandas `resample('1H')`
bin label: the timestamp floored to the hour). -/
def bucketOf (ts : Nat) : Nat := ts / msPerHour * msPerHour

/-- The bucket labels produced by pandas `resample('1H')` for data spanning
from a minimum to a maximum timestamp: every hour start from `b0` to `bn`
inclusive. -/
def bucketsFor (b0 bn : Nat) : List Nat :=
  (List.range ((bn - b0) / msPerHour + 1)).map (fun i => b0 + i * msPerHour)

/-- Per-bucket OHLCV of the raw trades falling in bucket `b`, taken from a list
already stably sorted by timestamp: `open` is the price of the chronologically
first trade of the bucket, `close` of the last, `high`/`low` the extrema, and
`volume` the running sum of amounts (pandas `ohlc()` plus `sum()`).  A bucket
with no trades yields `none` (a NaN row before the forward fill). -/
def rawBucket (sorted : List BudaMarketTradeEntry) (b : Nat) : Option Candle :=
  match sorted.filter (fun t => bucketOf t.timestamp == b) with
  | [] => none
  | t :: ts => some {
      open_ := t.price
      high := (ts.map (fun u => u.price)).foldl max t.price
      low := (ts.map (fun u => u.price)).foldl min t.price
      close := (List.getLast (t :: ts) (List.cons_ne_nil t ts)).price
      volume := (t :: ts).foldl (fun acc u => acc + u.amount) 0 }

/-- Forward fill (`fillna(method='ffill')`) over the per-bucket rows: a bucket
with no data copies each of `open`/`high`/`low`/`close` from the previous
output row, while its `volume` is the empty sum `0` (pandas `sum()` over an
empty bin is `0`, not NaN, so the fill never touches it). -/
def ffill (prev : Candle) : List (Nat × Option Candle) → List (Nat × Candle)
  | [] => []
  | (b, oc) :: rest =>
      match oc with
      | none => (b, { prev with volume := 0 }) :: ffill { prev with volume := 0 } rest
      | some c => (b, c) :: ffill c rest

/-- Seed for the forward fill.  The first bucket of a resample always contains
the minimum-timestamp trade, so the seed value is never emitted. -/
def seedCandle : Candle := ⟨0, 0, 0, 0, 0⟩

/-- Core of `BudaMarketTradeList.resample_ohlcv` on an already stably sorted
trade list: bucket the trades hourly from the first to the last timestamp,
aggregate each bucket, and forward fill the empty buckets. -/
def resample_core (sorted : List BudaMarketTradeEntry) : List (Nat × Candle) :=
  match sorted with
  | [] => []
  | t :: ts =>
      ffill seedCandle
        ((bucketsFor (bucketOf t.timestamp)
            (bucketOf (List.getLast (t :: ts) (List.cons_ne_nil t ts)).timestamp)).map
          (fun b => (b, rawBucket (t :: ts) b)))

/-- `BudaMarketTradeList.resample_ohlcv` with no `filter_timestamp`: pandas
first stably sorts the trades by their timestamp index (a non-monotonic index
is sorted with a stable mergesort before binning; a stable insertion sort
yields the identical list), then aggregates per hourly bucket and forward
fills. -/
def resample_ohlcv (trades : List BudaMarketTradeEntry) : List (Nat × Candle) :=
  resample_core (List.insertionSort (fun a b => a.timestamp ≤ b.timestamp) trades)

/-- Per-bucket aggregation used by `BudaMarketTradeList.merge`:
`agg({'open': 'first', 'high': 'max', 'low': 'min', 'close': 'last',
'volume': 'sum'})` over the concatenated candle rows falling in bucket `b`, in
their stable-sorted order.  `first` and `last` are positional: they take the
row that comes first and last in the concatenation order, not a chronological
recomputation from trades. -/
def rowBucket (rows : List (Nat × Candle)) (b : Nat) : Option Candle :=
  match rows.filter (fun r => bucketOf r.1 == b) with
  | [] => none
  | r :: rs => some {
      open_ := r.2.open_
      high := (rs.map (fun x => x.2.high)).foldl max r.2.high
      low := (rs.map (fun x => x.2.low)).foldl min r.2.low
      close := (List.getLast (r :: rs) (List.cons_ne_nil r rs)).2.close
      volume := (r :: rs).foldl (fun acc x => acc + x.2.volume) 0 }

/-- Core of `BudaMarketTradeList.merge` on the stably sorted concatenation of
the two candle frames. -/
def merge_core (rows : List (Nat × Candle)) : List (Nat × Candle) :=
  match rows with
  | [] => []
  | r :: rs =>
      ffill seedCandle
        ((bucketsFor (bucketOf r.1)
            (bucketOf (List.getLast (r :: rs) (List.cons_ne_nil r rs)).1)).map
          (fun b => (b, rowBucket (r :: rs) b)))

/-- The DataFrame computation of `BudaMarketTradeList.merge`:
`self.trade_list.append(other.trade_list)` followed by
`resample('1H').agg(...)` and a forward fill.  pandas stably sorts the
concatenated index before binning, so rows of `df1` precede rows of `df2`
within equal bucket timestamps. -/
def merge_frames (df1 df2 : List (Nat × Candle)) : List (Nat × Candle) :=
  merge_core (List.insertionSort (fun a b => a.1 ≤ b.1) (df1 ++ df2))

/-- Backing store of a `BudaMarketTradeList`: a plain Python list of raw trade
entries, or a pandas DataFrame of hourly candles. -/
inductive TradeListBacking where
  | raw (entries : List BudaMarketTradeEntry)
  | resampled (df : List (Nat × Candle))
deriving Repr, DecidableEq

/-- State of a `BudaMarketTradeList` instance. -/
structure BudaMarketTradeList where
  trade_list : TradeListBacking
  filter_timestamp : Option Nat
deriving Repr, DecidableEq

/-- `BudaMarketTradeList.is_resampled`: the backing store is a DataFrame. -/
def is_resampled (s : BudaMarketTradeList) : Bool :=
  match s.trade_list with
  | TradeListBacking.raw _ => false
  | TradeListBacking.resampled _ => true

/-- The dynamic value passed as `existing_entries` to the constructor: `list`,
`pd.DataFrame`, or anything else. -/
inductive ExistingEntries where
  | pylist (entries : List BudaMarketTradeEntry)
  | pydf (df : List (Nat × Candle))
  | otherValue
deriving Repr, DecidableEq

/-- `BudaMarketTradeList.__init__`: start with an empty raw list; a `list`
argument is stored as the raw backing, a DataFrame as the resampled backing,
and any other non-None value raises an AssertionError. -/
def budaMarketTradeList_init (existing_entries : Option ExistingEntries)
    (filter_timestamp : Option Nat) : Except String BudaMarketTradeList :=
  match existing_entries with
  | none => Except.ok ⟨TradeListBacking.raw [], filter_timestamp⟩
  | some (ExistingEntries.pylist l) => Except.ok ⟨TradeListBacking.raw l, filter_timestamp⟩
  | some (ExistingEntries.pydf df) => Except.ok ⟨TradeListBacking.resampled df, filter_timestamp⟩
  | some ExistingEntries.otherValue =>
      Except.error ("The existing values must be a list or Dataframe type")

/-- `BudaMarketTradeList.append_raw`: raises an AssertionError when the
instance is already resampled, otherwise appends every new entry in order to
the raw buffer. -/
def append_raw (s : BudaMarketTradeList) (new_entries : List BudaMarketTradeEntry) :
    Except String BudaMarketTradeList :=
  match s.trade_list with
  | TradeListBacking.resampled _ =>
      Except.error
        ("Assertion Error: this instance must not be resampled to be able to append raw data.")
  | TradeListBacking.raw l =>
      Except.ok ⟨TradeListBacking.raw (l ++ new_entries), s.filter_timestamp⟩

/-- `BudaMarketTradeList.merge`: the other list must already be resampled, the
receiver is auto-resampled when still raw, and the merged DataFrame replaces
the receiver backing. -/
def merge (s other : BudaMarketTradeList) : Except String BudaMarketTradeList :=
  match other.trade_list with
  | TradeListBacking.raw _ =>
      Except.error ("tradelist must be resampled to ohlc data before merge")
  | TradeListBacking.resampled df2 =>
      let df1 :=
        match s.trade_list with
        | TradeListBacking.resampled df => df
        | TradeListBacking.raw l => resample_ohlcv l
      Except.ok ⟨TradeListBacking.resampled (merge_frames df1 df2), s.filter_timestamp⟩

/-! ## Historical REST page parser
(src/krakenWebSocket/KrakenIntegration.py, KrakenHistoricalDataIntegration) -/

/-- Modelled from the spec: the index constants of the missing module
`core.Constants` (`REST_TIMESTAMP_INDEX`, `REST_OPEN_INDEX`, ...) address a
wire tuple `[timestamp, open, high, low, close, volume, ...]`; the tuple is
modelled as a record with those fields in wire order. -/
structure KrakenRestEntry where
  timestamp : Nat
  open_ : ℚ
  high : ℚ
  low : ℚ
  close : ℚ
  volume : ℚ
deriving Repr, DecidableEq

/-- The dict built by the `mapper` closure inside `parse_response_to_list`. -/
structure ParsedCandle where
  open_ : ℚ
  high : ℚ
  low : ℚ
  close : ℚ
  volume : ℚ
  timestamp : Nat
deriving Repr, DecidableEq

/-- The `mapper` closure of `parse_response_to_list`: reshape a wire tuple
into the candle dict. -/
def restMapper (e : KrakenRestEntry) : ParsedCandle :=
  ⟨e.open_, e.high, e.low, e.close, e.volume, e.timestamp⟩

/-- `KrakenHistoricalDataIntegration.parse_response_to_list`, applied to the
keyed entry array of the response together with its `last` field (the commit
boundary timestamp).  The source indexes `parsed[-1]`, which raises on an
empty page; the model returns `none` there.  The trailing candle is popped
exactly when `last < parsed[-1]['timestamp']`. -/
def parse_response_to_list (entries : List KrakenRestEntry) (last : Nat) :
    Option (List ParsedCandle) :=
  let parsed := entries.map restMapper
  match parsed.getLast? with
  | none => none
  | some lastParsed =>
      some (if last < lastParsed.timestamp then parsed.dropLast else parsed)

/-! ## Streaming trade message decoding
(src/krakenWebSocket/KrakenIntegration.py, `_ticket_list_to_dict`) -/

/-- Modelled from the spec: the index constants of the missing module
`krakenWebSocket.KrakenConstants` (`PRICE_INDEX`, `VOLUME_INDEX`,
`TIME_INDEX`) address one `[price, volume, time, side, ...]` tuple of a
streaming trade message; the tuple is modelled as a record in wire order.
The unused `side` field is kept for shape. -/
structure SocketTradeTuple where
  price : ℚ
  volume : ℚ
  time : ℚ
  side : Bool
deriving Repr, DecidableEq

/-- Modelled from the spec: `Constants.MARKET_INDEX` and
`Constants.TRADE_LIST` select the pair name and the final element of a
streaming trade message, the latter being the array of trade tuples; the
message is modelled as a record of those two components. -/
structure SocketTicket where
  pair : String
  trade_list : List SocketTradeTuple
deriving Repr, DecidableEq

/-- The decoded trade dict produced by `_ticket_list_to_dict`. -/
structure DecodedTrade where
  market : String
  timestamp : ℚ
  price : ℚ
  volume : ℚ
deriving Repr, DecidableEq

/-- The `mapper` dict of `_ticket_list_to_dict`: subscription pair to market
key; an unknown pair raises a KeyError, modelled as `none`. -/
def socket_pair_to_market (p : String) : Option String :=
  if p = ("XBT/USD") then some ("btc")
  else if p = ("ETH/USD") then some ("eth")
  else if p = ("BCH/USD") then some ("bch")
  else if p = ("LTC/USD") then some ("ltc")
  else none

/-- `_ticket_list_to_dict`: the decoded trade takes `timestamp` and `price`
from the last tuple of the message, and `volume` as the running sum of the
`volume` fields of all tuples.  An empty tuple list raises (IndexError),
modelled as `none`. -/
def ticket_list_to_dict (t : SocketTicket) : Option DecodedTrade :=
  match socket_pair_to_market t.pair, t.trade_list.getLast? with
  | some mk, some lastT =>
      some { market := mk, timestamp := lastT.time, price := lastT.price,
             volume := t.trade_list.foldl (fun acc e => acc + e.volume) 0 }
  | _, _ => none

/-! ## Connection supervisor
(src/krakenWebSocket/KrakenIntegration.py, KrakenSocketHandler)

The run loop `_manage_thread` / `_manage_connection` is modelled as a machine
consuming a finite trace of environment events.  Each event is the outcome of
the next blocking operation (`create_connection` + subscribe send, or
`ws.recv()` + `json.loads`), except `kill` which marks the point in time at
which `kill_on_next_receiv` sets the cooperative `_kill_thread` flag from
another thread.  When the trace runs out while the machine would block, the
run is left suspended and the actions emitted so far are returned. -/

/-- Environment events: handshake outcome, receive outcomes (a payload that
decodes to a JSON array, a payload that decodes to other valid JSON, a
transport or decode failure) and the asynchronous setting of the kill flag.
Payloads are identified by a natural number. -/
inductive SockEvent where
  | connectOk : SockEvent
  | connectFail : SockEvent
  | recvList : Nat → SockEvent
  | recvNonList : Nat → SockEvent
  | recvErr : SockEvent
  | kill : SockEvent
deriving Repr, DecidableEq

/-- Observable actions of the supervisor: a handshake attempt
(`_create_connection` call, with its outcome), a callback invocation
(`on_new_price_callback`), the disconnect alert, and the final
max-attempts alert. -/
inductive SockAction where
  | connectAttempt : Bool → SockAction
  | deliver : Nat → SockAction
  | alertDisconnect : SockAction
  | alertMaxAttempts : SockAction
deriving Repr, DecidableEq

/-- Control position inside the run loop: `outer` is the top of the `while`
of `_manage_thread`; `connTop` is the top of the `while True` of
`_manage_connection`, where the kill flag is read; `recvWait` is inside the
blocking `ws.recv()` after a check that found the flag clear. -/
inductive Phase where
  | outer : Phase
  | connTop : Phase
  | recvWait : Phase
deriving Repr, DecidableEq

/-- Mutable state of the run loop: whether `self.ws` is set, the
`reconnect_attempts` counter, and the `_kill_thread` flag. -/
structure RunState where
  ws : Bool
  attempts : Nat
  killed : Bool
deriving Repr, DecidableEq

/-- Result of evaluating the non-consuming control flow at a given phase:
either the run exits now with some final actions, or the machine is about to
block while disconnected (`discon`: the next event answers
`_create_connection`) or while receiving (`recv`: the next event answers
`ws.recv()`). -/
inductive StepRes where
  | halt : List SockAction → StepRes
  | discon : StepRes
  | recv : StepRes
deriving Repr, DecidableEq

/-- Non-consuming control flow: the `while` condition of `_manage_thread`
(exiting emits the max-attempts alert unless the kill flag is set), the
dispatch on `self.ws`, and the kill-flag check at the top of
`_manage_connection` (a set flag returns `None`, which breaks the outer loop
with no further alert). -/
def normStep (limit : Nat) (s : RunState) : Phase → StepRes
  | Phase.outer =>
      if limit ≤ s.attempts then
        StepRes.halt (if s.killed then [] else [SockAction.alertMaxAttempts])
      else if s.ws then
        (if s.killed then StepRes.halt [] else StepRes.recv)
      else StepRes.discon
  | Phase.connTop => if s.killed then StepRes.halt [] else StepRes.recv
  | Phase.recvWait => StepRes.recv

/-- One run of `_manage_thread` from a given state, consuming the event
trace.  While disconnected, a handshake attempt increments
`reconnect_attempts`; success resets it to `0` and enters the receive loop,
failure loops (with no alert: `_create_connection` only logs).  While
receiving, an array payload is forwarded to the callback and the loop
re-checks the kill flag; other valid JSON is skipped; a receive or decode
failure closes the socket, emits the disconnect alert and returns to the
outer loop.  A `kill` event sets the flag; a kill arriving inside the
blocking receive does not cancel it, so the pending receive still completes
(hence `recvWait` stays in `recvWait`). -/
def runAux (limit : Nat) (s : RunState) (ph : Phase) (evs : List SockEvent) :
    List SockAction × RunState :=
  match evs with
  | [] =>
      match normStep limit s ph with
      | StepRes.halt acts => (acts, s)
      | StepRes.discon => ([], s)
      | StepRes.recv => ([], s)
  | e :: rest =>
      match normStep limit s ph with
      | StepRes.halt acts => (acts, s)
      | StepRes.discon =>
          match e with
          | SockEvent.kill => runAux limit { s with killed := true } Phase.outer rest
          | SockEvent.connectOk =>
              let r := runAux limit { s with ws := true, attempts := 0 } Phase.connTop rest
              (SockAction.connectAttempt true :: r.1, r.2)
          | SockEvent.connectFail =>
              let r := runAux limit { s with attempts := s.attempts + 1 } Phase.outer rest
              (SockAction.connectAttempt false :: r.1, r.2)
          | SockEvent.recvList _ => ([], s)
          | SockEvent.recvNonList _ => ([], s)
          | SockEvent.recvErr => ([], s)
      | StepRes.recv =>
          match e with
          | SockEvent.kill => runAux limit { s with killed := true } Phase.recvWait rest
          | SockEvent.recvList m =>
              let r := runAux limit s Phase.connTop rest
              (SockAction.deliver m :: r.1, r.2)
          | SockEvent.recvNonList _ => runAux limit s Phase.connTop rest
          | SockEvent.recvErr =>
              let r := runAux limit { s with ws := false } Phase.outer rest
              (SockAction.alertDisconnect :: r.1, r.2)
          | SockEvent.connectOk => ([], s)
          | SockEvent.connectFail => ([], s)

/-- Externally visible state of a `KrakenSocketHandler` instance. -/
structure KrakenSocketHandlerState where
  ws : Bool
  reconnect_attempts : Nat
  reconnect_attempts_limit : Nat
  kill_thread : Bool
deriving Repr, DecidableEq

/-- `KrakenSocketHandler.__init__`: no socket, three reconnect attempts
allowed, flag clear. -/
def initHandler : KrakenSocketHandlerState := ⟨false, 0, 3, false⟩

/-- `kill_on_next_receiv`: set the cooperative flag. -/
def kill_on_next_receiv (h : KrakenSocketHandlerState) : KrakenSocketHandlerState :=
  { h with kill_thread := true }

/-- `_manage_thread`: normalize the attempt limit to at least `1`, reset the
attempts counter, and run the loop. -/
def manage_thread (h : KrakenSocketHandlerState) (evs : List SockEvent) :
    List SockAction × KrakenSocketHandlerState :=
  let limit := if h.reconnect_attempts_limit = 0 then 1 else h.reconnect_attempts_limit
  let r := runAux limit ⟨h.ws, 0, h.kill_thread⟩ Phase.outer evs
  (r.1, ⟨r.2.ws, r.2.attempts, limit, r.2.killed⟩)

/-- `connect_on_this_thread`: clear the kill flag, set the connection
arguments, and run the loop on the calling thread. -/
def connect_on_this_thread (h : KrakenSocketHandlerState) (evs : List SockEvent) :
    List SockAction × KrakenSocketHandlerState :=
  manage_thread { h with kill_thread := false } evs

/-- Payloads forwarded to the subscriber callback, in order. -/
def deliveredPayloads (acts : List SockAction) : List Nat :=
  acts.filterMap fun a =>
    match a with
    | SockAction.deliver m => some m
    | _ => none

/-- Payloads of the trace that decode to a JSON array, in receipt order. -/
def arrayPayloads (evs : List SockEvent) : List Nat :=
  evs.filterMap fun e =>
    match e with
    | SockEvent.recvList m => some m
    | _ => none

/-- Payloads of the trace that decode successfully (array or not), in
receipt order. -/
def decodedPayloads (evs : List SockEvent) : List Nat :=
  evs.filterMap fun e =>
    match e with
    | SockEvent.recvList m => some m
    | SockEvent.recvNonList m => some m
    | _ => none

/-- Whether an action is a callback invocation. -/
def isDeliver : SockAction → Bool
  | SockAction.deliver _ => true
  | _ => false

/-- Whether an action is a handshake attempt. -/
def isConnectAttempt : SockAction → Bool
  | SockAction.connectAttempt _ => true
  | _ => false

/-- Whether an action is an alert emission. -/
def isAlert : SockAction → Bool
  | SockAction.alertDisconnect => true
  | SockAction.alertMaxAttempts => true
  | _ => false

/-- Whether an event is a successful receive (array or other valid JSON). -/
def isRecvEvent : SockEvent → Bool
  | SockEvent.recvList _ => true
  | SockEvent.recvNonList _ => true
  | _ => false

/-! ## Run-loop lemmas -/

/-- With the kill flag set, the check at the top of `_manage_connection`
returns immediately and the outer loop breaks with no further action. -/
theorem runAux_connTop_killed (limit : Nat) (s : RunState) (evs : List SockEvent)
    (h : s.killed = true) : runAux limit s Phase.connTop evs = ([], s) := by
  have hn : normStep limit s Phase.connTop = StepRes.halt [] := by simp [normStep, h]
  cases evs with
  | nil => simp [runAux, hn]
  | cons e rest => cases e <;> simp [runAux, hn]

/-- With the kill flag set, the remaining outer loop never invokes the
callback: reconnect handling delivers nothing, and a re-entered receive loop
exits at its first flag check. -/
theorem countDeliver_outer_killed (limit : Nat) :
    ∀ (evs : List SockEvent) (s : RunState), s.killed = true →
      ((runAux limit s Phase.outer evs).1.countP isDeliver) = 0 := by
  intro evs
  induction evs with
  | nil =>
      intro s h
      rcases Nat.lt_or_ge s.attempts limit with hl | hl
      · cases hws : s.ws
        · have hn : normStep limit s Phase.outer = StepRes.discon := by
            simp [normStep, Nat.not_le.mpr hl, hws]
          simp [runAux, hn]
        · have hn : normStep limit s Phase.outer = StepRes.halt [] := by
            simp [normStep, Nat.not_le.mpr hl, hws, h]
          simp [runAux, hn]
      · have hn : normStep limit s Phase.outer = StepRes.halt [] := by
          simp [normStep, hl, h]
        simp [runAux, hn]
  | cons e rest ih =>
      intro s h
      rcases Nat.lt_or_ge s.attempts limit with hl | hl
      · cases hws : s.ws
        · have hn : normStep limit s Phase.outer = StepRes.discon := by
            simp [normStep, Nat.not_le.mpr hl, hws]
          cases e with
          | kill =>
              simp only [runAux, hn]
              exact ih _ rfl
          | connectOk =>
              simp only [runAux, hn]
              rw [runAux_connTop_killed limit _ rest (by simpa using h)]
              simp [List.countP_cons, isDeliver]
          | connectFail =>
              simp only [runAux, hn]
              rw [List.countP_cons, ih _ (by simpa using h)]
              simp [isDeliver]
          | recvList m => simp [runAux, hn]
          | recvNonList m => simp [runAux, hn]
          | recvErr => simp [runAux, hn]
        · have hn : normStep limit s Phase.outer = StepRes.halt [] := by
            simp [normStep, Nat.not_le.mpr hl, hws, h]
          cases e <;> simp [runAux, hn]
      · have hn : normStep limit s Phase.outer = StepRes.halt [] := by
          simp [normStep, hl, h]
        cases e <;> simp [runAux, hn]

/-- With the kill flag set while the supervisor is blocked in `ws.recv()`,
the pending receive may still hand one payload to the callback, after which
the flag check terminates the loop: at most one delivery remains. -/
theorem countDeliver_recvWait_killed (limit : Nat) :
    ∀ (evs : List SockEvent) (s : RunState), s.killed = true →
      ((runAux limit s Phase.recvWait evs).1.countP isDeliver) ≤ 1 := by
  intro evs
  have hn : ∀ s : RunState, normStep limit s Phase.recvWait = StepRes.recv := by
    intro s; simp [normStep]
  induction evs with
  | nil => intro s h; simp [runAux, hn]
  | cons e rest ih =>
      intro s h
      cases e with
      | kill =>
          simp only [runAux, hn]
          exact ih _ rfl
      | recvList m =>
          simp only [runAux, hn]
          rw [runAux_connTop_killed limit s rest h]
          simp [List.countP_cons, isDeliver]
      | recvNonList m =>
          simp only [runAux, hn]
          rw [runAux_connTop_killed limit s rest h]
          simp
      | recvErr =>
          simp only [runAux, hn]
          rw [List.countP_cons,
            countDeliver_outer_killed limit rest { s with ws := false } (by simpa using h)]
          simp [isDeliver]
      | connectOk => simp [runAux, hn]
      | connectFail => simp [runAux, hn]

/-! ## Forward-fill lemmas -/

/-- The forward fill preserves the bucket labels. -/
theorem ffill_map_fst (l : List (Nat × Option Candle)) :
    ∀ prev : Candle, (ffill prev l).map Prod.fst = l.map Prod.fst := by
  induction l with
  | nil => intro prev; rfl
  | cons p rest ih =>
      intro prev
      rcases p with ⟨b, oc⟩
      cases oc with
      | none => simp [ffill, ih]
      | some c => simp [ffill, ih]

/-- A forward-filled row whose source bucket is empty copies the previous
output row with its volume set to `0`. -/
theorem ffill_consec (l : List (Nat × Option Candle)) :
    ∀ (prev : Candle) (i : Nat) (bp b : Nat) (cp c : Candle),
      (ffill prev l)[i]? = some (bp, cp) →
      (ffill prev l)[i + 1]? = some (b, c) →
      l[i + 1]? = some (b, none) →
      c = { cp with volume := 0 } := by
  induction l with
  | nil =>
      intro prev i bp b cp c h1 h2 h3
      simp [ffill] at h1
  | cons p rest ih =>
      rcases p with ⟨b0, oc⟩
      intro prev i bp b cp c h1 h2 h3
      cases oc with
      | none =>
          have e0 : ffill prev ((b0, (none : Option Candle)) :: rest)
              = (b0, { prev with volume := 0 }) :: ffill { prev with volume := 0 } rest := rfl
          cases i with
          | zero =>
              rw [e0] at h1 h2
              rw [List.getElem?_cons_zero] at h1
              rw [List.getElem?_cons_succ] at h2 h3
              cases rest with
              | nil => simp at h3
              | cons q rest2 =>
                  rcases q with ⟨bq, ocq⟩
                  rw [List.getElem?_cons_zero] at h3
                  injection h3 with h3e
                  injection h3e with hb ho
                  subst hb
                  subst ho
                  have e1 : ffill { prev with volume := 0 } ((bq, (none : Option Candle)) :: rest2)
                      = (bq, { prev with volume := 0 })
                          :: ffill { prev with volume := 0 } rest2 := rfl
                  rw [e1, List.getElem?_cons_zero] at h2
                  injection h1 with h1e
                  injection h1e with hbp hcp
                  injection h2 with h2e
                  injection h2e with hb2 hc
                  subst hcp
                  subst hc
                  rfl
          | succ j =>
              rw [e0] at h1 h2
              rw [List.getElem?_cons_succ] at h1 h2 h3
              exact ih _ j bp b cp c h1 h2 h3
      | some c0 =>
          have e0 : ffill prev ((b0, some c0) :: rest)
              = (b0, c0) :: ffill c0 rest := rfl
          cases i with
          | zero =>
              rw [e0] at h1 h2
              rw [List.getElem?_cons_zero] at h1
              rw [List.getElem?_cons_succ] at h2 h3
              cases rest with
              | nil => simp at h3
              | cons q rest2 =>
                  rcases q with ⟨bq, ocq⟩
                  rw [List.getElem?_cons_zero] at h3
                  injection h3 with h3e
                  injection h3e with hb ho
                  subst hb
                  subst ho
                  have e1 : ffill c0 ((bq, (none : Option Candle)) :: rest2)
                      = (bq, { c0 with volume := 0 })
                          :: ffill { c0 with volume := 0 } rest2 := rfl
                  rw [e1, List.getElem?_cons_zero] at h2
                  injection h1 with h1e
                  injection h1e with hbp hcp
                  injection h2 with h2e
                  injection h2e with hb2 hc
                  subst hcp
                  subst hc
                  rfl
          | succ j =>
              rw [e0] at h1 h2
              rw [List.getElem?_cons_succ] at h1 h2 h3
              exact ih _ j bp b cp c h1 h2 h3


/-- Two consecutive rows of a forward-filled bucketed aggregation, where the
later bucket aggregates to `none`: the later row copies the earlier output
row with volume `0`. -/
theorem ffill_buckets_consec (f : Nat → Option Candle) (buckets : List Nat)
    (i : Nat) (bp b : Nat) (cp c : Candle)
    (h1 : (ffill seedCandle (buckets.map (fun bk => (bk, f bk))))[i]? = some (bp, cp))
    (h2 : (ffill seedCandle (buckets.map (fun bk => (bk, f bk))))[i + 1]? = some (b, c))
    (hf : f b = none) :
    c = { cp with volume := 0 } := by
  have hkey : buckets[i + 1]? = some b := by
    have hfst := congrArg (fun t => t[i + 1]?)
      (ffill_map_fst (buckets.map (fun bk => (bk, f bk))) seedCandle)
    simp only [List.getElem?_map, List.map_map] at hfst
    rw [h2] at hfst
    cases hbk : buckets[i + 1]? with
    | none => rw [hbk] at hfst; simp at hfst
    | some bk =>
        rw [hbk] at hfst
        simp at hfst
        simp [hfst]
  have hl : (buckets.map (fun bk => (bk, f bk)))[i + 1]? = some (b, none) := by
    rw [List.getElem?_map, hkey]
    simp [hf]
  exact ffill_consec _ seedCandle i bp b cp c h1 h2 hl


/-- C5 (amended): in both the `resample_ohlcv` and the `merge` result, a
bucket containing no contributing trades (respectively no contributing
candle rows) has volume `0` and copies each of `open`, `high`, `low` and
`close` column-wise from the previous output row (pandas
`fillna(method='ffill')`), rather than receiving the previous close in all
four price fields. -/
theorem empty_bucket_forward_fill :
    (∀ (trades : List BudaMarketTradeEntry) (i : Nat) (bp b : Nat) (cp c : Candle),
        (resample_ohlcv trades)[i]? = some (bp, cp) →
        (resample_ohlcv trades)[i + 1]? = some (b, c) →
        trades.filter (fun t => bucketOf t.timestamp == b) = [] →
        c = { cp with volume := 0 })
    ∧ (∀ (df1 df2 : List (Nat × Candle)) (i : Nat) (bp b : Nat) (cp c : Candle),
        (merge_frames df1 df2)[i]? = some (bp, cp) →
        (merge_frames df1 df2)[i + 1]? = some (b, c) →
        (df1 ++ df2).filter (fun r => bucketOf r.1 == b) = [] →
        c = { cp with volume := 0 }) := by
  constructor
  · intro trades i bp b cp c h1 h2 hfil
    unfold resample_ohlcv at h1 h2
    have hfil2 : (List.insertionSort
          (fun a b : BudaMarketTradeEntry => a.timestamp ≤ b.timestamp) trades).filter
        (fun t => bucketOf t.timestamp == b) = [] := by
      have hperm := (List.perm_insertionSort
          (fun a b : BudaMarketTradeEntry => a.timestamp ≤ b.timestamp) trades).filter
        (fun t => bucketOf t.timestamp == b)
      rw [hfil] at hperm
      exact List.Perm.eq_nil hperm
    cases hsort : List.insertionSort
        (fun a b : BudaMarketTradeEntry => a.timestamp ≤ b.timestamp) trades with
    | nil =>
        rw [hsort] at h1
        simp [resample_core] at h1
    | cons t ts =>
        rw [hsort] at h1 h2 hfil2
        simp only [resample_core] at h1 h2
        have hraw : rawBucket (t :: ts) b = none := by
          unfold rawBucket
          rw [hfil2]
        exact ffill_buckets_consec (rawBucket (t :: ts)) _ i bp b cp c h1 h2 hraw
  · intro df1 df2 i bp b cp c h1 h2 hfil
    unfold merge_frames at h1 h2
    have hfil2 : (List.insertionSort
          (fun a b : Nat × Candle => a.1 ≤ b.1) (df1 ++ df2)).filter
        (fun r => bucketOf r.1 == b) = [] := by
      have hperm := (List.perm_insertionSort
          (fun a b : Nat × Candle => a.1 ≤ b.1) (df1 ++ df2)).filter
        (fun r => bucketOf r.1 == b)
      rw [hfil] at hperm
      exact List.Perm.eq_nil hperm
    cases hsort : List.insertionSort
        (fun a b : Nat × Candle => a.1 ≤ b.1) (df1 ++ df2) with
    | nil =>
        rw [hsort] at h1
        simp [merge_core] at h1
    | cons r rs =>
        rw [hsort] at h1 h2 hfil2
        simp only [merge_core] at h1 h2
        have hrow : rowBucket (r :: rs) b = none := by
          unfold rowBucket
          rw [hfil2]
        exact ffill_buckets_consec (rowBucket (r :: rs)) _ i bp b cp c h1 h2 hrow


/-- C1 (amended): merging two aggregated series that cover the same bucket
combines that bucket positionally, not chronologically: `open` is the open
of the receiver series (the first frame in concatenation order), `close` is
the close of the argument series, `high`/`low` are the extrema of the two
rows, and `volume` is the plain sum of the two volumes, so trades
represented in both series are counted twice. -/
theorem merge_overlapping_bucket (b : Nat) (c1 c2 : Candle) (hb : bucketOf b = b) :
    merge_frames [(b, c1)] [(b, c2)] =
      [(b, ⟨c1.open_, max c1.high c2.high, min c1.low c2.low, c2.close,
            c1.volume + c2.volume⟩)] := by
  unfold merge_frames
  have hsort : List.insertionSort (fun a b : Nat × Candle => a.1 ≤ b.1)
      ([(b, c1)] ++ [(b, c2)]) = [(b, c1), (b, c2)] := by
    simp [List.insertionSort, List.orderedInsert]
  rw [hsort]
  unfold merge_core
  simp [bucketsFor, hb, rowBucket, ffill, List.range_succ, seedCandle]

/-- Counterexample for C1 as stated: merging the series of a later trade
(price 5) with the series of an earlier trade (price 3) in the same bucket
yields `open = 5` and `close = 3`, while the true chronological first and
last prices across the union of the trades are `3` and `5`; and merging a
series with a second series built from the same single trade of amount `1`
yields volume `2`, double-counting the trade instead of counting it once. -/
theorem merge_not_chronological_counterexample :
    merge_frames (resample_ohlcv [⟨msPerHour + 60000, 2, 5, true⟩])
        (resample_ohlcv [⟨msPerHour, 1, 3, true⟩])
      = [(msPerHour, ⟨5, 5, 3, 3, 3⟩)]
    ∧ resample_ohlcv ([⟨msPerHour + 60000, 2, 5, true⟩] ++ [⟨msPerHour, 1, 3, true⟩])
      = [(msPerHour, ⟨3, 5, 3, 5, 3⟩)]
    ∧ (merge_frames (resample_ohlcv [⟨msPerHour + 60000, 2, 5, true⟩])
          (resample_ohlcv [⟨msPerHour, 1, 3, true⟩])).map (fun p => (p.2.open_, p.2.close))
      ≠ (resample_ohlcv ([⟨msPerHour + 60000, 2, 5, true⟩]
          ++ [⟨msPerHour, 1, 3, true⟩])).map (fun p => (p.2.open_, p.2.close))
    ∧ merge_frames (resample_ohlcv [⟨0, 1, 1, true⟩]) (resample_ohlcv [⟨0, 1, 1, true⟩])
      = [(0, ⟨1, 1, 1, 1, 2⟩)]
    ∧ (2 : ℚ) ≠ 1 := by
  refine ⟨?_, ?_, ?_, ?_, by norm_num⟩ <;>
    norm_num [merge_frames, merge_core, resample_ohlcv, resample_core, List.insertionSort,
      List.orderedInsert, bucketsFor, bucketOf, msPerHour, rawBucket, rowBucket, ffill,
      List.range_succ, seedCandle]

/-- Witness for C1: the overlapping-bucket merge rule evaluated on a
concrete aligned bucket with two concrete candle rows. -/
theorem merge_overlapping_bucket_witness :
    bucketOf 3600000 = 3600000
    ∧ merge_frames [(3600000, (⟨1, 2, 3, 4, 5⟩ : Candle))] [(3600000, (⟨6, 7, 8, 9, 10⟩ : Candle))]
      = [(3600000, ⟨(⟨1, 2, 3, 4, 5⟩ : Candle).open_,
          max (⟨1, 2, 3, 4, 5⟩ : Candle).high (⟨6, 7, 8, 9, 10⟩ : Candle).high,
          min (⟨1, 2, 3, 4, 5⟩ : Candle).low (⟨6, 7, 8, 9, 10⟩ : Candle).low,
          (⟨6, 7, 8, 9, 10⟩ : Candle).close,
          (⟨1, 2, 3, 4, 5⟩ : Candle).volume + (⟨6, 7, 8, 9, 10⟩ : Candle).volume⟩)] :=
  ⟨by decide, merge_overlapping_bucket 3600000 ⟨1, 2, 3, 4, 5⟩ ⟨6, 7, 8, 9, 10⟩ (by decide)⟩

/-- Counterexample for C5 as stated: with trades of prices 1 then 2 in the
first bucket and a trade two hours later, the empty middle bucket is filled
with `open = 1` (the previous open), not with the previous close `2` in all
four price fields as the claim requires. -/
theorem empty_bucket_not_previous_close_counterexample :
    (resample_ohlcv [⟨0, 1, 1, true⟩, ⟨1, 1, 2, true⟩, ⟨2 * msPerHour, 1, 7, true⟩])[0]?
      = some (0, ⟨1, 2, 1, 2, 2⟩)
    ∧ (resample_ohlcv [⟨0, 1, 1, true⟩, ⟨1, 1, 2, true⟩, ⟨2 * msPerHour, 1, 7, true⟩])[1]?
      = some (msPerHour, ⟨1, 2, 1, 2, 0⟩)
    ∧ [⟨0, 1, 1, true⟩, ⟨1, 1, 2, true⟩,
        (⟨2 * msPerHour, 1, 7, true⟩ : BudaMarketTradeEntry)].filter
          (fun t => bucketOf t.timestamp == msPerHour) = []
    ∧ (⟨1, 2, 1, 2, 0⟩ : Candle) ≠ ⟨2, 2, 2, 2, 0⟩ := by
  refine ⟨?_, ?_, ?_, ?_⟩ <;>
    norm_num [resample_ohlcv, resample_core, List.insertionSort, List.orderedInsert,
      bucketsFor, bucketOf, msPerHour, rawBucket, ffill, List.range_succ, seedCandle]

/-- Witness for C5: both parts of the forward-fill theorem evaluated on
concrete inputs with an empty middle bucket. -/
theorem empty_bucket_forward_fill_witness :
    ((resample_ohlcv [⟨0, 1, 5, true⟩, ⟨2 * msPerHour, 1, 7, true⟩])[0]?
        = some (0, ⟨5, 5, 5, 5, 1⟩)
      ∧ (resample_ohlcv [⟨0, 1, 5, true⟩, ⟨2 * msPerHour, 1, 7, true⟩])[1]?
        = some (msPerHour, ⟨5, 5, 5, 5, 0⟩)
      ∧ [⟨0, 1, 5, true⟩, (⟨2 * msPerHour, 1, 7, true⟩ : BudaMarketTradeEntry)].filter
          (fun t => bucketOf t.timestamp == msPerHour) = []
      ∧ (⟨5, 5, 5, 5, 0⟩ : Candle) = { (⟨5, 5, 5, 5, 1⟩ : Candle) with volume := 0 })
    ∧ ((merge_frames [(0, ⟨1, 1, 1, 1, 1⟩)] [(2 * msPerHour, ⟨3, 3, 3, 3, 1⟩)])[0]?
        = some (0, ⟨1, 1, 1, 1, 1⟩)
      ∧ (merge_frames [(0, ⟨1, 1, 1, 1, 1⟩)] [(2 * msPerHour, ⟨3, 3, 3, 3, 1⟩)])[1]?
        = some (msPerHour, ⟨1, 1, 1, 1, 0⟩)
      ∧ ([(0, (⟨1, 1, 1, 1, 1⟩ : Candle))] ++ [(2 * msPerHour, (⟨3, 3, 3, 3, 1⟩ : Candle))]).filter
          (fun r : Nat × Candle => bucketOf r.1 == msPerHour) = []
      ∧ (⟨1, 1, 1, 1, 0⟩ : Candle) = { (⟨1, 1, 1, 1, 1⟩ : Candle) with volume := 0 }) := by
  have h1 : (resample_ohlcv [⟨0, 1, 5, true⟩, ⟨2 * msPerHour, 1, 7, true⟩])[0]?
      = some (0, ⟨5, 5, 5, 5, 1⟩) := by
    norm_num [resample_ohlcv, resample_core, List.insertionSort, List.orderedInsert,
      bucketsFor, bucketOf, msPerHour, rawBucket, ffill, List.range_succ, seedCandle]
  have h2 : (resample_ohlcv [⟨0, 1, 5, true⟩, ⟨2 * msPerHour, 1, 7, true⟩])[1]?
      = some (msPerHour, ⟨5, 5, 5, 5, 0⟩) := by
    norm_num [resample_ohlcv, resample_core, List.insertionSort, List.orderedInsert,
      bucketsFor, bucketOf, msPerHour, rawBucket, ffill, List.range_succ, seedCandle]
  have h3 : [⟨0, 1, 5, true⟩, (⟨2 * msPerHour, 1, 7, true⟩ : BudaMarketTradeEntry)].filter
      (fun t => bucketOf t.timestamp == msPerHour) = [] := by
    norm_num [bucketOf, msPerHour]
  have g1 : (merge_frames [(0, ⟨1, 1, 1, 1, 1⟩)] [(2 * msPerHour, ⟨3, 3, 3, 3, 1⟩)])[0]?
      = some (0, ⟨1, 1, 1, 1, 1⟩) := by
    norm_num [merge_frames, merge_core, List.insertionSort, List.orderedInsert,
      bucketsFor, bucketOf, msPerHour, rowBucket, ffill, List.range_succ, seedCandle]
  have g2 : (merge_frames [(0, ⟨1, 1, 1, 1, 1⟩)] [(2 * msPerHour, ⟨3, 3, 3, 3, 1⟩)])[1]?
      = some (msPerHour, ⟨1, 1, 1, 1, 0⟩) := by
    norm_num [merge_frames, merge_core, List.insertionSort, List.orderedInsert,
      bucketsFor, bucketOf, msPerHour, rowBucket, ffill, List.range_succ, seedCandle]
  have g3 : ([(0, (⟨1, 1, 1, 1, 1⟩ : Candle))] ++ [(2 * msPerHour, (⟨3, 3, 3, 3, 1⟩ : Candle))]).filter
      (fun r : Nat × Candle => bucketOf r.1 == msPerHour) = [] := by
    norm_num [bucketOf, msPerHour]
  exact ⟨⟨h1, h2, h3, empty_bucket_forward_fill.1 _ 0 0 msPerHour _ _ h1 h2 h3⟩,
    ⟨g1, g2, g3, empty_bucket_forward_fill.2 _ _ 0 0 msPerHour _ _ g1 g2 g3⟩⟩


/-! ## Claim theorems -/

/-- C3 (amended): while connected with the kill flag clear, every payload
that decodes to a JSON array is forwarded to the subscriber callback exactly
once and strictly in receipt order, but a payload that decodes successfully
to non-array JSON is skipped: the delivered sequence equals the subsequence
of array payloads of the receive trace. -/
theorem connected_array_payloads_delivered_in_order (limit : Nat) (s : RunState)
    (hk : s.killed = false) :
    ∀ evs : List SockEvent, (∀ e ∈ evs, isRecvEvent e = true) →
      deliveredPayloads (runAux limit s Phase.connTop evs).1 = arrayPayloads evs := by
  have hn : normStep limit s Phase.connTop = StepRes.recv := by simp [normStep, hk]
  intro evs
  induction evs with
  | nil =>
      intro _
      simp [runAux, hn, deliveredPayloads, arrayPayloads]
  | cons e rest ih =>
      intro hr
      have hrest : ∀ x ∈ rest, isRecvEvent x = true :=
        fun x hx => hr x (List.mem_cons_of_mem e hx)
      cases e with
      | recvList m =>
          simp only [runAux, hn]
          simp only [deliveredPayloads, arrayPayloads, List.filterMap_cons] at ih ⊢
          simpa using ih hrest
      | recvNonList m =>
          simp only [runAux, hn]
          simp only [deliveredPayloads, arrayPayloads, List.filterMap_cons] at ih ⊢
          simpa using ih hrest
      | kill => exact absurd (hr SockEvent.kill (by simp)) (by simp [isRecvEvent])
      | connectOk => exact absurd (hr SockEvent.connectOk (by simp)) (by simp [isRecvEvent])
      | connectFail => exact absurd (hr SockEvent.connectFail (by simp)) (by simp [isRecvEvent])
      | recvErr => exact absurd (hr SockEvent.recvErr (by simp)) (by simp [isRecvEvent])

/-- Witness for C3: a connected run over two array payloads and one
non-array payload delivers exactly the two array payloads in order. -/
theorem connected_array_payloads_delivered_in_order_witness :
    ((RunState.mk true 0 false).killed = false
      ∧ (∀ e ∈ [SockEvent.recvList 1, SockEvent.recvNonList 2, SockEvent.recvList 3],
          isRecvEvent e = true))
    ∧ deliveredPayloads
        (runAux 3 (RunState.mk true 0 false) Phase.connTop
          [SockEvent.recvList 1, SockEvent.recvNonList 2, SockEvent.recvList 3]).1
      = arrayPayloads [SockEvent.recvList 1, SockEvent.recvNonList 2, SockEvent.recvList 3] :=
  ⟨⟨rfl, by decide⟩,
    connected_array_payloads_delivered_in_order 3 (RunState.mk true 0 false) rfl
      [SockEvent.recvList 1, SockEvent.recvNonList 2, SockEvent.recvList 3] (by decide)⟩

/-- Counterexample for C3 as stated: the payload `7` decodes successfully
(valid JSON that is not an array, e.g. a heartbeat object) but is never
forwarded to the subscriber callback, so not every successfully decoded
payload is delivered. -/
theorem nonarray_payload_skipped_counterexample :
    decodedPayloads [SockEvent.recvNonList 7] = [7]
    ∧ deliveredPayloads
        (runAux 3 (RunState.mk true 0 false) Phase.connTop [SockEvent.recvNonList 7]).1 = []
    ∧ ([] : List Nat) ≠ [7] := by
  refine ⟨by decide, by decide, by decide⟩

/-- C4 (amended): once the cooperative kill flag is set, at most one more
message is delivered to the subscriber callback before the run loop exits,
from any control position of the loop. -/
theorem at_most_one_delivery_after_shutdown (limit : Nat) (s : RunState) (ph : Phase)
    (evs : List SockEvent) (h : s.killed = true) :
    ((runAux limit s ph evs).1.countP isDeliver) ≤ 1 := by
  cases ph with
  | outer => rw [countDeliver_outer_killed limit evs s h]; omega
  | connTop => rw [runAux_connTop_killed limit s evs h]; simp
  | recvWait => exact countDeliver_recvWait_killed limit evs s h

/-- Witness for C4: with the flag set while blocked in a receive, the
pending array payload is still delivered, and it is the only delivery. -/
theorem at_most_one_delivery_after_shutdown_witness :
    (RunState.mk true 0 true).killed = true
    ∧ ((runAux 3 (RunState.mk true 0 true) Phase.recvWait
        [SockEvent.recvList 5]).1.countP isDeliver) ≤ 1 :=
  ⟨rfl, at_most_one_delivery_after_shutdown 3 (RunState.mk true 0 true) Phase.recvWait
    [SockEvent.recvList 5] rfl⟩

/-- Counterexample for C4 as stated: the kill flag is never checked before
`_create_connection`, so when the in-flight receive fails after the flag is
set, the outer loop still performs a handshake attempt.  The run over
`[connectOk, kill, recvErr, connectOk]` makes a second connect attempt after
the kill event, and continuing from the reached post-kill state performs a
handshake attempt as its first action. -/
theorem reconnect_after_shutdown_counterexample :
    (runAux 3 (RunState.mk false 0 false) Phase.outer
        [SockEvent.connectOk, SockEvent.kill, SockEvent.recvErr, SockEvent.connectOk]).1
      = [SockAction.connectAttempt true, SockAction.alertDisconnect,
         SockAction.connectAttempt true]
    ∧ (runAux 3 (RunState.mk false 0 false) Phase.outer
        [SockEvent.connectOk, SockEvent.kill, SockEvent.recvErr]).2
      = RunState.mk false 0 true
    ∧ (runAux 3 (RunState.mk false 0 true) Phase.outer
        [SockEvent.connectOk]).1.countP isConnectAttempt = 1 := by
  refine ⟨by decide, by decide, by decide⟩

/-- C6 (amended): while the attempt limit is not reached, a successful
handshake immediately resets the attempts counter to `0` and enters the
receive loop, and a failed handshake increments the attempts counter by one,
emitting no action besides the attempt itself (in particular no alert:
`_create_connection` only logs; alerts are emitted for receive-loop
disconnections and once when the attempt limit is exhausted). -/
theorem handshake_attempt_counter_spec (limit a : Nat) (k : Bool)
    (evs : List SockEvent) (h : a < limit) :
    runAux limit (RunState.mk false a k) Phase.outer (SockEvent.connectOk :: evs)
      = (SockAction.connectAttempt true
            :: (runAux limit (RunState.mk true 0 k) Phase.connTop evs).1,
         (runAux limit (RunState.mk true 0 k) Phase.connTop evs).2)
    ∧ runAux limit (RunState.mk false a k) Phase.outer (SockEvent.connectFail :: evs)
      = (SockAction.connectAttempt false
            :: (runAux limit (RunState.mk false (a + 1) k) Phase.outer evs).1,
         (runAux limit (RunState.mk false (a + 1) k) Phase.outer evs).2) := by
  have hn : normStep limit (RunState.mk false a k) Phase.outer = StepRes.discon := by
    simp [normStep, Nat.not_le.mpr h]
  constructor
  · simp only [runAux, hn]
  · simp only [runAux, hn]

/-- Witness for C6: the two handshake transitions at attempts `0` of
limit `3` with an empty continuation trace. -/
theorem handshake_attempt_counter_spec_witness :
    0 < 3
    ∧ (runAux 3 (RunState.mk false 0 false) Phase.outer (SockEvent.connectOk :: [])
        = (SockAction.connectAttempt true
              :: (runAux 3 (RunState.mk true 0 false) Phase.connTop []).1,
           (runAux 3 (RunState.mk true 0 false) Phase.connTop []).2)
      ∧ runAux 3 (RunState.mk false 0 false) Phase.outer (SockEvent.connectFail :: [])
        = (SockAction.connectAttempt false
              :: (runAux 3 (RunState.mk false 1 false) Phase.outer []).1,
           (runAux 3 (RunState.mk false 1 false) Phase.outer []).2)) :=
  ⟨by decide, handshake_attempt_counter_spec 3 0 false [] (by decide)⟩

/-- Counterexample for C6 as stated: a failed handshake emits no alert.  One
failure followed by a success emits two connect attempts and no alert at
all, and a run of three straight failures emits exactly one alert (the final
max-attempts alert), not one per failed attempt. -/
theorem failed_handshake_no_alert_counterexample :
    runAux 3 (RunState.mk false 0 false) Phase.outer
        [SockEvent.connectFail, SockEvent.connectOk]
      = ([SockAction.connectAttempt false, SockAction.connectAttempt true],
         RunState.mk true 0 false)
    ∧ (runAux 3 (RunState.mk false 0 false) Phase.outer
        [SockEvent.connectFail, SockEvent.connectOk]).1.countP isAlert = 0
    ∧ (runAux 3 (RunState.mk false 0 false) Phase.outer
        [SockEvent.connectFail, SockEvent.connectFail, SockEvent.connectFail]).1.countP isAlert
      = 1 := by
  refine ⟨by decide, by decide, by decide⟩

/-- C7 (amended): a `KrakenSocketHandler` instance is not single-use through
`connect_on_this_thread`: the call clears the kill flag and runs the loop
again, so an instance whose previous run left the socket open (as a
cooperative-shutdown exit does) delivers messages again on the next call,
whatever its previous kill flag and attempts counter. -/
theorem connect_on_this_thread_reruns (h : KrakenSocketHandlerState) (m : Nat)
    (hw : h.ws = true) :
    deliveredPayloads (connect_on_this_thread h [SockEvent.recvList m]).1 = [m] := by
  have key : ∀ limit : Nat, 0 < limit →
      deliveredPayloads
        (runAux limit (RunState.mk h.ws 0 false) Phase.outer [SockEvent.recvList m]).1 = [m] := by
    intro limit hpos
    have hn : normStep limit (RunState.mk h.ws 0 false) Phase.outer = StepRes.recv := by
      simp [normStep, hw, Nat.not_le.mpr hpos]
    have hn2 : normStep limit (RunState.mk h.ws 0 false) Phase.connTop = StepRes.recv := by
      simp [normStep]
    simp [runAux, hn, hn2, deliveredPayloads]
  by_cases h0 : h.reconnect_attempts_limit = 0
  · simpa [connect_on_this_thread, manage_thread, h0] using key 1 (by omega)
  · simpa [connect_on_this_thread, manage_thread, h0] using
      key h.reconnect_attempts_limit (Nat.pos_of_ne_zero h0)

/-- Witness for C7: a handler with an open socket, a set kill flag and a
zero attempt limit still delivers on the next `connect_on_this_thread`. -/
theorem connect_on_this_thread_reruns_witness :
    (KrakenSocketHandlerState.mk true 2 0 true).ws = true
    ∧ deliveredPayloads
        (connect_on_this_thread (KrakenSocketHandlerState.mk true 2 0 true)
          [SockEvent.recvList 9]).1 = [9] :=
  ⟨rfl, connect_on_this_thread_reruns (KrakenSocketHandlerState.mk true 2 0 true) 9 rfl⟩

/-- Counterexample for C7 as stated: after a run of a fresh handler exits
through a shutdown request (final state has the kill flag set and the socket
still open), invoking `connect_on_this_thread` again runs the loop and
delivers a message, so the instance is restartable. -/
theorem restart_after_shutdown_counterexample :
    (connect_on_this_thread initHandler
        [SockEvent.connectOk, SockEvent.kill, SockEvent.recvNonList 0]).2
      = KrakenSocketHandlerState.mk true 0 3 true
    ∧ deliveredPayloads
        (connect_on_this_thread
          ((connect_on_this_thread initHandler
              [SockEvent.connectOk, SockEvent.kill, SockEvent.recvNonList 0]).2)
          [SockEvent.recvList 7]).1 = [7]
    ∧ ([7] : List Nat) ≠ [] := by
  refine ⟨by decide, by decide, by decide⟩

/-- C2 (amended): for every non-empty parsed historical page, the trailing
candle is dropped exactly when its timestamp is strictly greater than the
commit boundary `last`; a trailing candle whose timestamp equals the
boundary is kept. -/
theorem parse_response_trailing_discard (es : List KrakenRestEntry)
    (e : KrakenRestEntry) (last : Nat) :
    parse_response_to_list (es ++ [e]) last =
      some (if last < e.timestamp then es.map restMapper
            else es.map restMapper ++ [restMapper e]) := by
  unfold parse_response_to_list
  by_cases hlt : last < e.timestamp <;> simp [restMapper, hlt]

/-- Counterexample for C2 as stated: the page with candle timestamps
`[100, 200, 300]` and commit boundary `300` keeps all three candles (the
source pops only when `last < parsed[-1]['timestamp']`), whereas the claim
says only the candles at `100` and `200` survive. -/
theorem parse_boundary_candle_kept_counterexample :
    parse_response_to_list
        [⟨100, 0, 0, 0, 0, 0⟩, ⟨200, 0, 0, 0, 0, 0⟩, ⟨300, 0, 0, 0, 0, 0⟩] 300
      = some [⟨0, 0, 0, 0, 0, 100⟩, ⟨0, 0, 0, 0, 0, 200⟩, ⟨0, 0, 0, 0, 0, 300⟩]
    ∧ parse_response_to_list
        [⟨100, 0, 0, 0, 0, 0⟩, ⟨200, 0, 0, 0, 0, 0⟩, ⟨300, 0, 0, 0, 0, 0⟩] 300
      ≠ some [⟨0, 0, 0, 0, 0, 100⟩, ⟨0, 0, 0, 0, 0, 200⟩] := by
  constructor
  · simp [parse_response_to_list, restMapper]
  · simp [parse_response_to_list, restMapper]

/-- C8: a streaming trade message batching several tuples is decoded into a
single trade whose `volume` is the sum of the `volume` fields of all tuples
of the message, while `timestamp` and `price` are taken from the
chronologically last tuple; in particular no tuple is dropped from the
volume aggregation. -/
theorem ticket_aggregates_all_tuples (pair mk : String) (ts : List SocketTradeTuple)
    (e : SocketTradeTuple) (hm : socket_pair_to_market pair = some mk) :
    ticket_list_to_dict ⟨pair, ts ++ [e]⟩ =
      some ⟨mk, e.time, e.price, (ts ++ [e]).foldl (fun acc x => acc + x.volume) 0⟩ := by
  unfold ticket_list_to_dict
  simp [hm]

/-- Witness for C8: a two-tuple message for the BTC pair decodes to the
last price and time with the summed volume. -/
theorem ticket_aggregates_all_tuples_witness :
    socket_pair_to_market ("XBT/USD") = some ("btc")
    ∧ ticket_list_to_dict ⟨("XBT/USD"), [⟨1, 2, 3, true⟩] ++ [⟨4, 5, 6, false⟩]⟩ =
        some ⟨("btc"), 6, 4,
          ([(⟨1, 2, 3, true⟩ : SocketTradeTuple)] ++ [(⟨4, 5, 6, false⟩ : SocketTradeTuple)]).foldl
            (fun acc x => acc + x.volume) 0⟩ :=
  ⟨by simp [socket_pair_to_market],
    ticket_aggregates_all_tuples ("XBT/USD") ("btc") [⟨1, 2, 3, true⟩] ⟨4, 5, 6, false⟩
      (by simp [socket_pair_to_market])⟩

/-- C9: `append_raw` succeeds exactly on a non-resampled instance, in which
case it appends the new entries behind the existing raw buffer in arrival
order and the instance stays in raw mode; on a resampled instance it raises
the usage error. -/
theorem append_raw_spec :
    (∀ (fts : Option Nat) (l new_entries : List BudaMarketTradeEntry),
        append_raw ⟨TradeListBacking.raw l, fts⟩ new_entries
          = Except.ok ⟨TradeListBacking.raw (l ++ new_entries), fts⟩
        ∧ is_resampled ⟨TradeListBacking.raw (l ++ new_entries), fts⟩ = false)
    ∧ (∀ (s : BudaMarketTradeList) (new_entries : List BudaMarketTradeEntry),
        (∃ msg, append_raw s new_entries = Except.error msg) ↔ is_resampled s = true) := by
  constructor
  · intro fts l new_entries
    exact ⟨rfl, rfl⟩
  · intro s new_entries
    rcases s with ⟨tl, fts⟩
    cases tl with
    | raw l => simp [append_raw, is_resampled]
    | resampled df => simp [append_raw, is_resampled]

/-- C10: the constructor stores a plain list as the raw backing (raw mode),
a DataFrame as the resampled backing (aggregated mode, with no resample
call), starts from an empty raw buffer when nothing is passed, and raises
for any other non-None value; being in aggregated mode is exactly having a
DataFrame backing. -/
theorem init_mode_spec :
    budaMarketTradeList_init none none = Except.ok ⟨TradeListBacking.raw [], none⟩
    ∧ (∀ (fts : Option Nat) (l : List BudaMarketTradeEntry),
        budaMarketTradeList_init (some (ExistingEntries.pylist l)) fts
          = Except.ok ⟨TradeListBacking.raw l, fts⟩
        ∧ is_resampled ⟨TradeListBacking.raw l, fts⟩ = false)
    ∧ (∀ (fts : Option Nat) (df : List (Nat × Candle)),
        budaMarketTradeList_init (some (ExistingEntries.pydf df)) fts
          = Except.ok ⟨TradeListBacking.resampled df, fts⟩
        ∧ is_resampled ⟨TradeListBacking.resampled df, fts⟩ = true)
    ∧ (∀ fts : Option Nat, ∃ msg,
        budaMarketTradeList_init (some ExistingEntries.otherValue) fts = Except.error msg)
    ∧ (∀ s : BudaMarketTradeList,
        is_resampled s = true ↔ ∃ df, s.trade_list = TradeListBacking.resampled df) := by
  refine ⟨rfl, fun fts l => ⟨rfl, rfl⟩, fun fts df => ⟨rfl, rfl⟩,
    fun fts => ⟨_, rfl⟩, ?_⟩
  intro s
  rcases s with ⟨tl, fts⟩
  cases tl <;> simp [is_resampled]

end Fortacryp
